import Mathlib

/-!
Verification of the poc-agendador core (a WhatsApp ingestion bot built on
Effect-TS) against its natural-language specification.

The development shallowly embeds the relevant source functions:

* `src/whatsapp/Connection.ts` — reconnection policy and connection-state
  snapshot (`createReconnectionPolicy`, `connect`, `getConnectionState`);
* `src/whatsapp/MessageStream.ts` — event normalization
  (`extractMessageDataEffect`), the bounded ingestion queue and the
  `messages.upsert` handler (`createMessageStream`);
* `src/database/AuthState.ts` — recursive binary-safe serialization
  (`serializeBinaryData`, `deserializeBinaryData`);
* `src/database/Repository.ts` — `markAsProcessed` over the `messages` table;
* `src/effects/Logger.ts` — the 2-second sweep and its per-record summary.

Machine-level details kept faithful to the JavaScript source: string
truthiness (the empty string is falsy), `||` defaulting, optional chaining,
the missing null-check behind `key.id!`, the normalizer's `try/catch` that
converts the `RangeError` thrown by `toISOString` on a timestamp beyond the
`Date` range into a null result, base64 with `=` padding as produced by
`Buffer.toString('base64')`, and the back-pressure semantics of Effect's
`Queue.bounded`.
-/

/-! ## Base64 (Node `Buffer.from(bytes).toString('base64')` and its inverse)

Standard base64 alphabet with `=` padding.  `b64DecodeL` models decoding of
well-formed padded base64 (every string decoded in this development is an
encoder output); Node's lenient treatment of malformed input is irrelevant
here and a malformed tail decodes to `[]`. -/

def b64Chars : List Char :=
  "ABCDEFGHIJKLMNOPQRSTUVWXYZabcdefghijklmnopqrstuvwxyz0123456789+/".data

def b64Enc (n : Nat) : Char := b64Chars.getD n 'A'

def b64Dec (c : Char) : Nat := b64Chars.indexOf c

/-- Encode a byte list (each byte `< 256`) into base64 characters,
three bytes to four characters, padding the final partial group. -/
def b64EncodeL : List Nat → List Char
  | [] => []
  | [b1] => [b64Enc (b1 / 4), b64Enc (b1 % 4 * 16), '=', '=']
  | [b1, b2] => [b64Enc (b1 / 4), b64Enc (b1 % 4 * 16 + b2 / 16),
      b64Enc (b2 % 16 * 4), '=']
  | b1 :: b2 :: b3 :: rest =>
      b64Enc (b1 / 4) :: b64Enc (b1 % 4 * 16 + b2 / 16) ::
      b64Enc (b2 % 16 * 4 + b3 / 64) :: b64Enc (b3 % 64) :: b64EncodeL rest

/-- Decode well-formed padded base64 characters back into bytes. -/
def b64DecodeL : List Char → List Nat
  | c1 :: c2 :: c3 :: c4 :: rest =>
      if c3 = '=' then
        [b64Dec c1 * 4 + b64Dec c2 / 16]
      else if c4 = '=' then
        [b64Dec c1 * 4 + b64Dec c2 / 16, b64Dec c2 % 16 * 16 + b64Dec c3 / 4]
      else
        (b64Dec c1 * 4 + b64Dec c2 / 16) ::
        (b64Dec c2 % 16 * 16 + b64Dec c3 / 4) ::
        (b64Dec c3 % 4 * 64 + b64Dec c4) ::
        b64DecodeL rest
  | _ => []

def base64Encode (bytes : List Nat) : String := String.mk (b64EncodeL bytes)

theorem b64Dec_b64Enc : ∀ n, n < 64 → b64Dec (b64Enc n) = n := by decide

theorem b64Chars_length : b64Chars.length = 64 := by decide

theorem b64Enc_ne_pad : ∀ n, b64Enc n ≠ '=' := by
  intro n
  by_cases h : n < 64
  · revert h
    exact (by decide : ∀ m, m < 64 → b64Enc m ≠ '=') n
  · unfold b64Enc
    rw [List.getD_eq_default _ _ (by rw [b64Chars_length]; omega)]
    decide

theorem b64_roundtrip : ∀ bs : List Nat, (∀ b ∈ bs, b < 256) →
    b64DecodeL (b64EncodeL bs) = bs
  | [], _ => rfl
  | [b1], h => by
    have hb1 : b1 < 256 := h b1 (by simp)
    simp only [b64EncodeL, b64DecodeL, if_pos rfl, if_true]
    rw [b64Dec_b64Enc _ (by omega), b64Dec_b64Enc _ (by omega)]
    simp only [List.cons.injEq, and_true]
    omega
  | [b1, b2], h => by
    have hb1 : b1 < 256 := h b1 (by simp)
    have hb2 : b2 < 256 := h b2 (by simp)
    simp only [b64EncodeL, b64DecodeL, if_neg (b64Enc_ne_pad _), if_pos rfl, if_true]
    rw [b64Dec_b64Enc _ (by omega), b64Dec_b64Enc _ (by omega),
      b64Dec_b64Enc _ (by omega)]
    simp only [List.cons.injEq, and_true]
    omega
  | b1 :: b2 :: b3 :: rest, h => by
    have hb1 : b1 < 256 := h b1 (by simp)
    have hb2 : b2 < 256 := h b2 (by simp)
    have hb3 : b3 < 256 := h b3 (by simp)
    have ih := b64_roundtrip rest (fun b hb => h b (by simp [hb]))
    simp only [b64EncodeL, b64DecodeL, if_neg (b64Enc_ne_pad _)]
    rw [b64Dec_b64Enc _ (by omega), b64Dec_b64Enc _ (by omega),
      b64Dec_b64Enc _ (by omega), b64Dec_b64Enc _ (by omega), ih]
    simp only [List.cons.injEq, and_true]
    omega

/-! ## Auth blob serialization (`serializeBinaryData` / `deserializeBinaryData`)

A credential/key blob is a JavaScript value built from scalars, raw byte
sequences (`Uint8Array`/`Buffer`, both modelled as `binary` since the decoder
restores every byte sequence as a `Uint8Array`), arrays, and string-keyed
objects (key order as produced by `Object.entries`). -/

mutual
inductive JsValue where
  | str (s : String)
  | num (n : Int)
  | boolean (b : Bool)
  | nullV
  | undef
  | binary (bytes : List Nat)
  | arr (elems : JsList)
  | obj (fields : JsFields)
inductive JsList where
  | nil
  | cons (head : JsValue) (tail : JsList)
inductive JsFields where
  | nil
  | cons (key : String) (value : JsValue) (tail : JsFields)
end

/-- First-match property lookup, as JavaScript property access on the
objects this development builds. -/
def fieldsLookup : JsFields → String → Option JsValue
  | .nil, _ => none
  | .cons k v tl, key => if k = key then some v else fieldsLookup tl key

/-- The decoder's tag test `obj && obj.__type === 'binary'`. -/
def hasBinaryTag : JsFields → Bool
  | .nil => false
  | .cons k v tl =>
      if k = "__type" then
        match v with
        | .str s => s = "binary"
        | _ => false
      else hasBinaryTag tl

mutual
/-- `serializeBinaryData` from `AuthState.ts`: a byte sequence becomes the
tagged wrapper `{__type: 'binary', data: base64(bytes)}`; arrays map
element-wise, objects key-wise, scalars pass through. -/
def serializeBinaryData : JsValue → JsValue
  | .binary bytes =>
      .obj (.cons "__type" (.str "binary")
        (.cons "data" (.str (base64Encode bytes)) .nil))
  | .arr elems => .arr (serializeList elems)
  | .obj fields => .obj (serializeFields fields)
  | v => v
def serializeList : JsList → JsList
  | .nil => .nil
  | .cons h t => .cons (serializeBinaryData h) (serializeList t)
def serializeFields : JsFields → JsFields
  | .nil => .nil
  | .cons k v t => .cons k (serializeBinaryData v) (serializeFields t)
end

/-- `Object.entries` of a `Uint8Array`, reached when `deserializeBinaryData`
is applied directly to a raw byte sequence: index keys `"0"`, `"1"`, …
mapped to the byte values. -/
def indexFields (i : Nat) : List Nat → JsFields
  | [] => .nil
  | b :: rest => .cons (Nat.repr i) (.num (Int.ofNat b)) (indexFields (i + 1) rest)

mutual
/-- `deserializeBinaryData` from `AuthState.ts`.  An object carrying the
`__type: 'binary'` tag is turned back into bytes via `Buffer.from(data,
'base64')` — which throws (modelled as `.error`) when `data` is not a
string; arrays map element-wise, other objects key-wise, scalars pass
through.  A raw byte sequence is itself an `object` to `typeof`, so it is
walked by `Object.entries` into an index-keyed plain object. -/
def deserializeBinaryData : JsValue → Except String JsValue
  | .obj fs =>
      if hasBinaryTag fs then
        match fieldsLookup fs "data" with
        | some (.str s) => .ok (.binary (b64DecodeL s.data))
        | _ => .error "Buffer.from: first argument must be a string"
      else
        match deserializeFields fs with
        | .ok fs' => .ok (.obj fs')
        | .error e => .error e
  | .arr es =>
      match deserializeList es with
      | .ok es' => .ok (.arr es')
      | .error e => .error e
  | .binary bs => .ok (.obj (indexFields 0 bs))
  | v => .ok v
def deserializeList : JsList → Except String JsList
  | .nil => .ok .nil
  | .cons h t =>
      match deserializeBinaryData h with
      | .ok h' =>
        match deserializeList t with
        | .ok t' => .ok (.cons h' t')
        | .error e => .error e
      | .error e => .error e
def deserializeFields : JsFields → Except String JsFields
  | .nil => .ok .nil
  | .cons k v t =>
      match deserializeBinaryData v with
      | .ok v' =>
        match deserializeFields t with
        | .ok t' => .ok (.cons k v' t')
        | .error e => .error e
      | .error e => .error e
end

mutual
/-- A well-formed blob: every byte of a byte sequence is `< 256`, and no
object spoofs the reserved `__type: 'binary'` tag. -/
def validBlob : JsValue → Bool
  | .binary bs => bs.all (fun b => decide (b < 256))
  | .arr es => validBlobList es
  | .obj fs => !hasBinaryTag fs && validBlobFields fs
  | _ => true
def validBlobList : JsList → Bool
  | .nil => true
  | .cons h t => validBlob h && validBlobList t
def validBlobFields : JsFields → Bool
  | .nil => true
  | .cons _ v t => validBlob v && validBlobFields t
end

/-- Serialization never introduces nor removes the binary tag on an
object's own key list: keys are preserved and a value serializes to the
string `"binary"` only if it was that string already. -/
theorem hasBinaryTag_serializeFields : ∀ fs, hasBinaryTag (serializeFields fs) = hasBinaryTag fs
  | .nil => rfl
  | .cons k v t => by
    by_cases hk : k = "__type"
    · cases v <;> simp [serializeFields, hasBinaryTag, hk, serializeBinaryData]
    · simp [serializeFields, hasBinaryTag, hk, hasBinaryTag_serializeFields t]

mutual
theorem roundTripValue : ∀ v, validBlob v = true →
    deserializeBinaryData (serializeBinaryData v) = .ok v
  | .str _, _ => rfl
  | .num _, _ => rfl
  | .boolean _, _ => rfl
  | .nullV, _ => rfl
  | .undef, _ => rfl
  | .binary bs, h => by
    have hb : ∀ b ∈ bs, b < 256 := by simpa [validBlob] using h
    simp [serializeBinaryData, deserializeBinaryData, hasBinaryTag,
      fieldsLookup, base64Encode, b64_roundtrip bs hb]
  | .arr es, h => by
    have h' : validBlobList es = true := by simpa [validBlob] using h
    simp [serializeBinaryData, deserializeBinaryData, roundTripList es h']
  | .obj fs, h => by
    have h' : hasBinaryTag fs = false ∧ validBlobFields fs = true := by
      simpa [validBlob] using h
    simp [serializeBinaryData, deserializeBinaryData,
      hasBinaryTag_serializeFields, h'.1, roundTripFields fs h'.2]
theorem roundTripList : ∀ es, validBlobList es = true →
    deserializeList (serializeList es) = .ok es
  | .nil, _ => rfl
  | .cons hd t, h => by
    have h' : validBlob hd = true ∧ validBlobList t = true := by
      simpa [validBlobList] using h
    simp [serializeList, deserializeList, roundTripValue hd h'.1,
      roundTripList t h'.2]
theorem roundTripFields : ∀ fs, validBlobFields fs = true →
    deserializeFields (serializeFields fs) = .ok fs
  | .nil, _ => rfl
  | .cons k v t, h => by
    have h' : validBlob v = true ∧ validBlobFields t = true := by
      simpa [validBlobFields] using h
    simp [serializeFields, deserializeFields, roundTripValue v h'.1,
      roundTripFields t h'.2]
end

/-! ## Event normalizer (`extractMessageDataEffect` in `MessageStream.ts`)

`proto.IWebMessageInfo` restricted to the fields the function reads.
JavaScript truthiness is modelled explicitly: the empty string and the
number 0 are falsy, so `!key.remoteJid`, `myNumber ? … : null`,
`caption || placeholder` and `messageTimestamp ? … : …` all treat them as
absent.  The ISO-string formatting of the timestamp is abstracted to the
epoch value in milliseconds. -/

structure MessageKey where
  remoteJid : Option String
  fromMe : Option Bool
  id : Option String
  participant : Option String
deriving Repr, DecidableEq

structure ExtendedTextMessage where
  text : Option String
deriving Repr, DecidableEq

structure ImageMessage where
  caption : Option String
deriving Repr, DecidableEq

structure VideoMessage where
  caption : Option String
deriving Repr, DecidableEq

structure DocumentMessage where
  fileName : Option String
deriving Repr, DecidableEq

structure MessageInfo where
  conversation : Option String
  extendedTextMessage : Option ExtendedTextMessage
  imageMessage : Option ImageMessage
  videoMessage : Option VideoMessage
  audioMessage : Option Unit
  stickerMessage : Option Unit
  documentMessage : Option DocumentMessage
deriving Repr, DecidableEq

structure WebMessageInfo where
  key : Option MessageKey
  message : Option MessageInfo
  messageTimestamp : Option Nat
deriving Repr, DecidableEq

/-- The normalized record (`InsertMessageSchema`).  The TypeScript schema
declares `id : string`, but the value assigned is `key.id!` whose runtime
value may be absent; the field is therefore an `Option`. -/
structure InsertMessage where
  id : Option String
  «from» : Option String
  «to» : Option String
  chat_id : String
  timestamp : Nat
  content : String
  messageType : String
  isFromMe : Bool
  isGroup : Bool
  processed : Bool
deriving Repr, DecidableEq

/-- JavaScript string truthiness: `""` is falsy. -/
def truthy : Option String → Option String
  | some s => if s = "" then none else some s
  | none => none

/-- `a || d` for an optional string against a string default. -/
def jsOrString (o : Option String) (d : String) : String :=
  match truthy o with
  | some s => s
  | none => d

def listStartsWith : List Char → List Char → Bool
  | _, [] => true
  | [], _ :: _ => false
  | a :: as, b :: bs => a == b && listStartsWith as bs

def listContainsSub (needle : List Char) : List Char → Bool
  | [] => listStartsWith [] needle
  | c :: rest => listStartsWith (c :: rest) needle || listContainsSub needle rest

/-- JavaScript `s.includes(pat)`. -/
def jsIncludes (s pat : String) : Bool := listContainsSub pat.data s.data

/-- `extractNumber` from `MessageStream.ts`:
`fullId.split('@')[0]?.split(':')[0] || null`. -/
def extractNumber : Option String → Option String
  | none => none
  | some s =>
      let t := String.mk ((s.data.takeWhile (fun c => c ≠ '@')).takeWhile
        (fun c => c ≠ ':'))
      if t = "" then none else some t

/-- `myNumber ? extractNumber(myNumber) : null`. -/
def localNumber (myNumber : Option String) : Option String :=
  match truthy myNumber with
  | some m => extractNumber (some m)
  | none => none

/-- The first-match-wins content/type chain over the payload variants. -/
def extractContent (mi : Option MessageInfo) : String × String :=
  match mi with
  | none => ("[Special message]", "other")
  | some m =>
      match truthy m.conversation with
      | some c => (c, "text")
      | none =>
          match truthy (m.extendedTextMessage.bind ExtendedTextMessage.text) with
          | some t => (t, "text")
          | none =>
              match m.imageMessage with
              | some im => (jsOrString im.caption "[Image]", "image")
              | none =>
                  match m.videoMessage with
                  | some vm => (jsOrString vm.caption "[Video]", "video")
                  | none =>
                      match m.audioMessage with
                      | some _ => ("[Audio]", "audio")
                      | none =>
                          match m.stickerMessage with
                          | some _ => ("[Sticker]", "sticker")
                          | none =>
                              match m.documentMessage with
                              | some dm =>
                                  ("[Document: " ++ jsOrString dm.fileName "No name"
                                    ++ "]", "document")
                              | none => ("[Special message]", "other")

/-- The JavaScript `Date` range: `new Date(ms)` holds a valid time only for
`ms` up to 8.64e15 milliseconds; beyond it `toISOString()` throws a
`RangeError`. -/
def jsDateRangeMs : Nat := 8640000000000000

/-- `message.messageTimestamp ? new Date(Number(ts) * 1000).toISOString()
: new Date().toISOString()` (0 is falsy), abstracted to epoch milliseconds
with `now` the receipt time.  `none` models the `RangeError` thrown by
`toISOString` when the scaled timestamp falls outside the `Date` range;
the fallback `new Date()` is always in range. -/
def extractTimestamp (ts : Option Nat) (now : Nat) : Option Nat :=
  match ts with
  | some t =>
      if t ≠ 0 then
        if t * 1000 ≤ jsDateRangeMs then some (t * 1000) else none
      else some now
  | none => some now

/-- `extractMessageDataEffect(message, myNumber)`: returns `none` for
`!key || !key.remoteJid`, and also when the timestamp conversion throws —
the surrounding `try/catch` turns any extraction exception into a logged
diagnostic plus a null result.  The only throwing expression on this value
domain is `toISOString` on an out-of-range timestamp; note that `key.id!`
is never checked. -/
def extractMessageDataEffect (message : WebMessageInfo)
    (myNumber : Option String) (now : Nat) : Option InsertMessage :=
  match message.key with
  | none => none
  | some key =>
      match truthy key.remoteJid with
      | none => none
      | some chatId =>
          match extractTimestamp message.messageTimestamp now with
          | none => none
          | some timestamp =>
              let isFromMe := key.fromMe.getD false
              let isGroup := jsIncludes chatId "@g.us"
              let fromTo : Option String × Option String :=
                if isFromMe then
                  (localNumber myNumber, extractNumber (some chatId))
                else if isGroup then
                  (extractNumber (some (jsOrString key.participant chatId)),
                    localNumber myNumber)
                else
                  (extractNumber (some chatId), localNumber myNumber)
              let ct := extractContent message.message
              some {
                id := key.id
                «from» := fromTo.1
                «to» := fromTo.2
                chat_id := chatId
                timestamp := timestamp
                content := ct.1
                messageType := ct.2
                isFromMe := isFromMe
                isGroup := isGroup
                processed := false
              }

/-- The batch-expansion loop of `createMessageStream`: guard
`message.key && message.key.remoteJid`, then normalize with **no** local
identity (the call site passes no `myNumber`), keeping non-null records in
arrival order. -/
def processBatchMessages (msgs : List WebMessageInfo) (now : Nat) :
    List InsertMessage :=
  msgs.filterMap (fun m =>
    match m.key with
    | some k =>
        match truthy k.remoteJid with
        | some _ => extractMessageDataEffect m none now
        | none => none
    | none => none)

/-! ## Ingestion queue (`createMessageStream` in `MessageStream.ts`)

`Queue.bounded<BaileysMessage>(1000)` creates an Effect queue with the
**back-pressure** strategy: an offer against a full queue neither fails nor
drops — the offering fiber suspends until capacity frees (the dropping
behavior belongs to `Queue.dropping`, which this code does not use).  The
`messages.upsert` handler forks the offer with `Effect.runFork`, so the
transport callback itself never blocks, and its `catchAll` logs only if the
offer fails — which an offer of error type `never` cannot do. -/

structure BaileysMessage where
  upsertType : String
  messages : List WebMessageInfo
deriving Repr, DecidableEq

structure BoundedQueue (α : Type) where
  capacity : Nat
  items : List α
deriving Repr, DecidableEq

inductive OfferOutcome (α : Type) where
  /-- The offer completed immediately and the queue now holds the value. -/
  | enqueued (q : BoundedQueue α)
  /-- Back-pressure: the forked offer suspends until capacity frees; the
  queue is unchanged and the value is not lost. -/
  | suspended
  /-- Drop-newest, the behavior of `Queue.dropping` — never produced by
  `Queue.bounded`. -/
  | dropped
deriving Repr, DecidableEq

/-- `Queue.offer` against a queue created by `Queue.bounded`. -/
def queueOffer {α : Type} (q : BoundedQueue α) (a : α) : OfferOutcome α :=
  if q.items.length < q.capacity then
    .enqueued ⟨q.capacity, q.items ++ [a]⟩
  else
    .suspended

def createMessageStreamQueueCapacity : Nat := 1000

/-- The `messages.upsert` handler: fork `Queue.offer`, log
`"Failed to queue message"` only when the offer fails.  `Queue.offer` has
error type `never`, so the diagnostic list is empty in every outcome. -/
def messagesUpsertHandler (q : BoundedQueue BaileysMessage)
    (batch : BaileysMessage) : OfferOutcome BaileysMessage × List String :=
  (queueOffer q batch, [])

/-! ## Session connector (`Connection.ts`)

`createReconnectionPolicy = Schedule.exponential("1 seconds").pipe(
Schedule.intersect(Schedule.recurs(5)), Schedule.jittered)`.
`Schedule.exponential` recurs forever (it only shapes delays),
`Schedule.jittered` only randomizes them, so whether another retry happens
is decided by `Schedule.recurs(5)` alone: it allows five recurrences. -/

def recursBound : Nat := 5

/-- Whether `createReconnectionPolicy` admits another retry after
`retriesSoFar` completed retries. -/
def reconnectionPolicyContinues (retriesSoFar : Nat) : Bool :=
  decide (retriesSoFar < recursBound)

inductive ConnectOutcome where
  /-- The acquisition succeeded on the `attempts`-th attempt. -/
  | connected (attempts : Nat)
  /-- Every attempt failed and the schedule is exhausted; the last error
  surfaces to the caller after `attempts` attempts. -/
  | failed (attempts : Nat)
deriving Repr, DecidableEq

def ConnectOutcome.attempts : ConnectOutcome → Nat
  | .connected n => n
  | .failed n => n

/-- Driver of `Effect.retry(createReconnectionPolicy)` around the scoped
acquisition in `connect()`.  `failsAt n` tells whether the attempt after
`n` completed retries fails.  The fuel starts at `recursBound + 1`, an
upper bound on the attempts the schedule can demand; the fuel-zero branch
is unreachable from `connectRun`. -/
def connectRunAux (failsAt : Nat → Bool) : Nat → Nat → ConnectOutcome
  | 0, retries => .failed retries
  | fuel + 1, retries =>
      if failsAt retries then
        if reconnectionPolicyContinues retries then
          connectRunAux failsAt fuel (retries + 1)
        else
          .failed (retries + 1)
      else
        .connected (retries + 1)

def connectRun (failsAt : Nat → Bool) : ConnectOutcome :=
  connectRunAux failsAt (recursBound + 1) 0

/-- `getConnectionState` of `WhatsAppConnectionLive`:
`() => Effect.succeed({ status: "open" as const })`. -/
inductive ConnStatus where
  | connecting
  | «open»
  | close
  | reconnecting
deriving Repr, DecidableEq

structure WASocketHandle where
  socketId : Nat
deriving Repr, DecidableEq

structure ConnectionState where
  status : ConnStatus
  socket : Option WASocketHandle
deriving Repr, DecidableEq

def getConnectionState : ConnectionState :=
  { status := ConnStatus.«open», socket := none }

/-! ## Message repository (`Repository.ts`) and scheduler (`Logger.ts`)

The `messages` table is a list of rows (the row shape after the
`RETURNING`/`SELECT` column aliases, i.e. the `WhatsAppMessage` class).
`markAsProcessed` runs `UPDATE messages SET processed = true WHERE id = ?
RETURNING …` and returns `result[0]` — `none` when the update matched no
row; no error besides a storage-layer `SqlError` can arise. -/

structure WhatsAppMessage where
  id : String
  «from» : Option String
  «to» : Option String
  chat_id : String
  timestamp : String
  content : String
  messageType : String
  isFromMe : Bool
  isGroup : Bool
  processed : Bool
  createdAt : String
deriving Repr, DecidableEq

/-- The errors a repository call can surface: a storage-layer failure
(out of scope of the pure model, never constructed here) — and the
spec-level `NotFound`, which the implementation never raises either. -/
inductive RepoError where
  | sqlError (msg : String)
  | notFound
deriving Repr, DecidableEq

/-- Effect of the `UPDATE … SET processed = true WHERE id = ?` statement. -/
def applyMarkProcessed (table : List WhatsAppMessage) (messageId : String) :
    List WhatsAppMessage :=
  table.map (fun r => if r.id = messageId then { r with processed := true } else r)

/-- `markAsProcessed` from `Repository.ts`: run the update and return
`result[0]` of the `RETURNING` rows — a normal (`Except.ok`) completion
whether or not any row matched. -/
def markAsProcessed (table : List WhatsAppMessage) (messageId : String) :
    Except RepoError (List WhatsAppMessage × Option WhatsAppMessage) :=
  let updated := applyMarkProcessed table messageId
  .ok (updated, (updated.filter (fun r => r.id == messageId)).head?)

/-- Modelled from the spec: `markProcessed(id)` "fails with `NotFound` if
`id` unknown" (§4.5) — the contract the implementation is compared with. -/
def markProcessedSpec (table : List WhatsAppMessage) (messageId : String) :
    Except RepoError (List WhatsAppMessage × Option WhatsAppMessage) :=
  if (table.filter (fun r => r.id == messageId)).isEmpty then
    .error RepoError.notFound
  else
    markAsProcessed table messageId

def insertByTimestamp (m : WhatsAppMessage) :
    List WhatsAppMessage → List WhatsAppMessage
  | [] => [m]
  | x :: xs =>
      if m.timestamp < x.timestamp then m :: x :: xs
      else x :: insertByTimestamp m xs

def sortByTimestamp : List WhatsAppMessage → List WhatsAppMessage
  | [] => []
  | x :: xs => insertByTimestamp x (sortByTimestamp xs)

/-- `getUnprocessedMessages`: `SELECT … WHERE processed = false ORDER BY
timestamp ASC`. -/
def getUnprocessedMessages (table : List WhatsAppMessage) :
    List WhatsAppMessage :=
  sortByTimestamp (table.filter (fun r => !r.processed))

/-- The truncation in `startLogging`:
`content.length > 50 ? content.substring(0, 50) + "..." : content`. -/
def truncateContent (content : String) : String :=
  if content.length > 50 then String.mk (content.data.take 50) ++ "..."
  else content

/-- String interpolation of a nullable column, as JavaScript template
literals render `null`. -/
def jsShowNullable (o : Option String) : String := o.getD "null"

/-- The per-record line logged by the 2-second sweep:
`` `${direction} [${type}] ${from} ${direction} ${to}: ${truncated}` ``. -/
def summaryLine (m : WhatsAppMessage) : String :=
  let direction := if m.isFromMe then "→" else "←"
  direction ++ " [" ++ m.messageType ++ "] " ++ jsShowNullable m.«from» ++ " "
    ++ direction ++ " " ++ jsShowNullable m.«to» ++ ": "
    ++ truncateContent m.content

/-- One sweep of the scheduler (`startLogging` body): fetch unprocessed
records, and for each in fetch order emit its summary then mark it
processed. -/
def sweepOnce (table : List WhatsAppMessage) :
    List WhatsAppMessage × List String :=
  let unprocessed := getUnprocessedMessages table
  (unprocessed.foldl (fun t m => applyMarkProcessed t m.id) table,
    unprocessed.map summaryLine)

/-! ## Claims -/

/-- C9: `getConnectionState` returns the constant snapshot
`{ status: "open" }` regardless of the actual connection lifecycle — it is a
constant that never carries a socket and never reports a closed, connecting
or reconnecting state. -/
theorem getConnectionState_constant_open :
    getConnectionState = { status := ConnStatus.«open», socket := none } ∧
    getConnectionState.socket = none ∧
    getConnectionState.status ≠ ConnStatus.close ∧
    getConnectionState.status ≠ ConnStatus.connecting ∧
    getConnectionState.status ≠ ConnStatus.reconnecting := by
  refine ⟨rfl, rfl, ?_, ?_, ?_⟩ <;> decide

/-- C7: the sweep's per-record summary leaves content of length at most 50
unchanged (in particular exactly 50 characters is not truncated), and for
longer content emits exactly the first 50 characters followed by the
three-character ellipsis marker `"..."`. -/
theorem truncateContent_boundary (content : String) :
    (content.length ≤ 50 → truncateContent content = content) ∧
    (content.length > 50 →
      truncateContent content = String.mk (content.data.take 50) ++ "..." ∧
      (truncateContent content).length = 53 ∧
      (truncateContent content).data.take 50 = content.data.take 50) := by
  constructor
  · intro h
    simp [truncateContent, Nat.not_lt.mpr h]
  · intro h
    have hlen : content.data.length = content.length := rfl
    have hif : truncateContent content = String.mk (content.data.take 50) ++ "..." := by
      simp [truncateContent, h]
    refine ⟨hif, ?_, ?_⟩
    · rw [hif, String.length_append]
      have h1 : (String.mk (content.data.take 50)).length = 50 := by
        show (content.data.take 50).length = 50
        rw [List.length_take]
        omega
      rw [h1]
      rfl
    · rw [hif]
      have hd : (String.mk (content.data.take 50) ++ "...").data
          = content.data.take 50 ++ "...".data := String.data_append _ _
      rw [hd, List.take_append_of_le_length (by rw [List.length_take]; omega),
        List.take_take]
      simp

/-- C7 witness: a 50-character content is left unmodified; a 51-character
content becomes its first 50 characters plus `"..."`. -/
theorem truncateContent_boundary_witness :
    truncateContent "01234567890123456789012345678901234567890123456789" =
      "01234567890123456789012345678901234567890123456789" ∧
    truncateContent "012345678901234567890123456789012345678901234567890" =
      "01234567890123456789012345678901234567890123456789..." := by
  constructor
  · exact (truncateContent_boundary _).1 (by decide)
  · have := ((truncateContent_boundary
      "012345678901234567890123456789012345678901234567890").2 (by decide)).1
    rw [this]
    decide

def sampleBatch : BaileysMessage := { upsertType := "notify", messages := [] }

def fullQueue : BoundedQueue BaileysMessage :=
  { capacity := createMessageStreamQueueCapacity
    items := List.replicate 1000 sampleBatch }

/-- C3 counterexample: against the full 1000-element queue, the handler's
offer is *suspended* by the back-pressure strategy — the newest batch is
not dropped and no diagnostic is logged. -/
theorem enqueue_full_queue_no_drop_no_log :
    messagesUpsertHandler fullQueue sampleBatch = (OfferOutcome.suspended, []) ∧
    queueOffer fullQueue sampleBatch ≠ OfferOutcome.dropped := by
  have hq : queueOffer fullQueue sampleBatch = OfferOutcome.suspended := by
    unfold queueOffer fullQueue
    rw [List.length_replicate]
    simp [createMessageStreamQueueCapacity]
  exact ⟨by simp [messagesUpsertHandler, hq], by simp [hq]⟩

/-- C3 as amended: offering one more batch to the full bounded queue leaves
the queue unchanged and suspends the forked offer until capacity frees —
the batch is not dropped, nothing is logged, and (the offer being forked
with `Effect.runFork`) the transport callback is not blocked. -/
theorem enqueue_full_queue_suspends (q : BoundedQueue BaileysMessage)
    (batch : BaileysMessage)
    (_hcap : q.capacity = createMessageStreamQueueCapacity)
    (hfull : q.items.length = q.capacity) :
    messagesUpsertHandler q batch = (OfferOutcome.suspended, []) := by
  simp [messagesUpsertHandler, queueOffer, hfull]

/-- C3 witness: the amended behavior at the concrete full queue. -/
theorem enqueue_full_queue_suspends_witness :
    messagesUpsertHandler fullQueue sampleBatch = (OfferOutcome.suspended, []) :=
  enqueue_full_queue_suspends fullQueue sampleBatch rfl
    (by show (List.replicate 1000 sampleBatch).length = _
        rw [List.length_replicate]
        rfl)

theorem connectRunAux_attempts_le (failsAt : Nat → Bool) :
    ∀ fuel retries, (connectRunAux failsAt fuel retries).attempts ≤ retries + fuel := by
  intro fuel
  induction fuel with
  | zero => intro retries; simp [connectRunAux, ConnectOutcome.attempts]
  | succ f ih =>
    intro retries
    simp only [connectRunAux]
    by_cases h1 : failsAt retries
    · by_cases h2 : reconnectionPolicyContinues retries
      · simp only [h1, h2, if_true]
        have := ih (retries + 1)
        omega
      · simp only [Bool.not_eq_true] at h2
        simp only [h1, h2, if_true, Bool.false_eq_true, if_false,
          ConnectOutcome.attempts]
        omega
    · simp only [Bool.not_eq_true] at h1
      simp only [h1, Bool.false_eq_true, if_false, ConnectOutcome.attempts]
      omega

theorem connectRunAux_all_fail (failsAt : Nat → Bool)
    (hall : ∀ n, failsAt n = true) :
    ∀ fuel retries, fuel + retries = 6 → 1 ≤ fuel →
      connectRunAux failsAt fuel retries = .failed 6 := by
  intro fuel
  induction fuel with
  | zero => intro retries _ h1; omega
  | succ f ih =>
    intro retries hsum _
    simp only [connectRunAux, hall retries, if_true]
    by_cases hc : retries < 5
    · have hc' : reconnectionPolicyContinues retries = true := by
        simp [reconnectionPolicyContinues, recursBound, hc]
      rw [hc']
      simp only [if_true]
      exact ih (retries + 1) (by omega) (by omega)
    · have hc' : reconnectionPolicyContinues retries = false := by
        simp [reconnectionPolicyContinues, recursBound]
        omega
      rw [hc']
      simp only [Bool.false_eq_true, if_false]
      have hr : retries + 1 = 6 := by omega
      rw [hr]

/-- C2 counterexample: when every connection attempt fails, `Effect.retry`
with `createReconnectionPolicy` makes the initial attempt plus the five
retries of `Schedule.recurs(5)` — six attempts in total, so a 6th attempt
*is* started after the 5th consecutive failure. -/
theorem connect_all_fail_six_attempts :
    connectRun (fun _ => true) = ConnectOutcome.failed 6 ∧
    (connectRun (fun _ => true)).attempts ≠ 5 := by
  constructor <;> decide

/-- C2 as amended: every run of `connect()` makes at most 6 attempts (one
initial plus at most 5 retries), and when every attempt fails exactly 6
attempts are made and the failure surfaces as a terminal error — after the
6th consecutive failure no 7th attempt is started. -/
theorem connect_retry_budget (failsAt : Nat → Bool) :
    (connectRun failsAt).attempts ≤ 6 ∧
    ((∀ n, failsAt n = true) → connectRun failsAt = ConnectOutcome.failed 6) := by
  constructor
  · have := connectRunAux_attempts_le failsAt (recursBound + 1) 0
    simpa [connectRun, recursBound] using this
  · intro hall
    have := connectRunAux_all_fail failsAt hall (recursBound + 1) 0
      (by simp [recursBound]) (by simp [recursBound])
    simpa [connectRun, recursBound] using this

/-- C2 witness: the amended bound applied to the all-failing run. -/
theorem connect_retry_budget_witness :
    (connectRun (fun _ => true)).attempts ≤ 6 ∧
    connectRun (fun _ => true) = ConnectOutcome.failed 6 :=
  ⟨(connect_retry_budget (fun _ => true)).1,
   (connect_retry_budget (fun _ => true)).2 (fun _ => rfl)⟩

/-- Evaluation of `extractMessageDataEffect` once the guard
`!key || !key.remoteJid` has passed. -/
theorem extractMessageDataEffect_eq (msg : WebMessageInfo) (k : MessageKey)
    (chatId : String) (myNumber : Option String) (now ts : Nat)
    (hk : msg.key = some k) (hj : truthy k.remoteJid = some chatId)
    (hts : extractTimestamp msg.messageTimestamp now = some ts) :
    extractMessageDataEffect msg myNumber now = some
      { id := k.id
        «from» := (if k.fromMe.getD false then
            (localNumber myNumber, extractNumber (some chatId))
          else if jsIncludes chatId "@g.us" then
            (extractNumber (some (jsOrString k.participant chatId)),
              localNumber myNumber)
          else (extractNumber (some chatId), localNumber myNumber)).1
        «to» := (if k.fromMe.getD false then
            (localNumber myNumber, extractNumber (some chatId))
          else if jsIncludes chatId "@g.us" then
            (extractNumber (some (jsOrString k.participant chatId)),
              localNumber myNumber)
          else (extractNumber (some chatId), localNumber myNumber)).2
        chat_id := chatId
        timestamp := ts
        content := (extractContent msg.message).1
        messageType := (extractContent msg.message).2
        isFromMe := k.fromMe.getD false
        isGroup := jsIncludes chatId "@g.us"
        processed := false } := by
  unfold extractMessageDataEffect
  rw [hk]
  simp only [hj, hts]

/-- C4 as amended: the normalizer returns the absent result exactly when
the event lacks a `key`, its conversation identifier (`remoteJid`) is
absent or empty, or the timestamp conversion throws (nonzero
`messageTimestamp` scaled beyond the `Date` range, caught by the
surrounding `try/catch`); a missing *message id* alone is not checked
(`key.id!`) and does not produce an absent result. -/
theorem extract_absent_iff_unroutable (msg : WebMessageInfo)
    (myNumber : Option String) (now : Nat) :
    extractMessageDataEffect msg myNumber now = none ↔
      (msg.key = none ∨ ∃ k, msg.key = some k ∧
        (truthy k.remoteJid = none ∨
          extractTimestamp msg.messageTimestamp now = none)) := by
  cases hk : msg.key with
  | none => simp [extractMessageDataEffect, hk]
  | some k =>
    cases hj : truthy k.remoteJid with
    | none => simp [extractMessageDataEffect, hk, hj]
    | some chatId =>
      cases hts : extractTimestamp msg.messageTimestamp now with
      | none => simp [extractMessageDataEffect, hk, hj, hts]
      | some ts =>
        rw [extractMessageDataEffect_eq msg k chatId myNumber now ts hk hj hts]
        simp [hk, hj, hts]

def hugeTimestampKey : MessageKey :=
  { remoteJid := some "555@s", fromMe := none, id := some "m9", participant := none }

/-- An event whose nonzero timestamp, scaled to milliseconds, exceeds the
JS `Date` range of 8.64e15 ms, so `toISOString` throws a `RangeError` and
the catch yields a null result. -/
def hugeTimestampEvent : WebMessageInfo :=
  { key := some hugeTimestampKey
    message := none
    messageTimestamp := some 9000000000000000 }

/-- C4 witness: the amended criterion at a concrete keyless event, and at
an event routed fine but with an out-of-range timestamp. -/
theorem extract_absent_iff_unroutable_witness :
    extractMessageDataEffect
      { key := none, message := none, messageTimestamp := none } none 0 = none ∧
    extractMessageDataEffect hugeTimestampEvent none 0 = none :=
  ⟨(extract_absent_iff_unroutable
      { key := none, message := none, messageTimestamp := none } none 0).mpr
      (Or.inl rfl),
   (extract_absent_iff_unroutable hugeTimestampEvent none 0).mpr
      (Or.inr ⟨hugeTimestampKey, rfl, Or.inr (by decide)⟩)⟩

/-- A plain-text payload carrying `conversation: "hi"`. -/
def plainTextHi : MessageInfo :=
  { conversation := some "hi"
    extendedTextMessage := none
    imageMessage := none
    videoMessage := none
    audioMessage := none
    stickerMessage := none
    documentMessage := none }

def noIdKey : MessageKey :=
  { remoteJid := some "555@s", fromMe := none, id := none, participant := none }

/-- An event with a conversation identifier but no stable message id. -/
def noIdEvent : WebMessageInfo :=
  { key := some noIdKey
    message := some plainTextHi
    messageTimestamp := some 1 }

/-- C4 counterexample: an event lacking a stable message identifier (but
carrying a conversation identifier) is *not* mapped to the absent result —
the normalizer produces a record whose `id` is absent. -/
theorem extract_missing_id_still_produces_record :
    noIdEvent.key.bind MessageKey.id = none ∧
    extractMessageDataEffect noIdEvent none 0 ≠ none ∧
    (extractMessageDataEffect noIdEvent none 0).map InsertMessage.id
      = some none := by
  refine ⟨rfl, ?_, ?_⟩ <;> decide

/-- C6: for every inbound event addressed to a direct (non-group)
conversation, the normalized record takes the sender from the conversation
identifier and the recipient from the local identity, both canonicalized by
`extractNumber` (stripping `@…`/`:…` suffixes); the record is marked
inbound. -/
theorem normalize_inbound_direct (msg : WebMessageInfo) (k : MessageKey)
    (chatId : String) (myNumber : Option String) (now ts : Nat)
    (hkey : msg.key = some k)
    (hjid : truthy k.remoteJid = some chatId)
    (hin : k.fromMe.getD false = false)
    (hdirect : jsIncludes chatId "@g.us" = false)
    (hts : extractTimestamp msg.messageTimestamp now = some ts) :
    extractMessageDataEffect msg myNumber now = some
      { id := k.id
        «from» := extractNumber (some chatId)
        «to» := localNumber myNumber
        chat_id := chatId
        timestamp := ts
        content := (extractContent msg.message).1
        messageType := (extractContent msg.message).2
        isFromMe := false
        isGroup := false
        processed := false } := by
  rw [extractMessageDataEffect_eq msg k chatId myNumber now ts hkey hjid hts]
  simp [hin, hdirect]

/-- Scenario A: inbound text event
`{id:"m1", conversationId:"555@s", text:"hi"}`. -/
def scenarioAKey : MessageKey :=
  { remoteJid := some "555@s", fromMe := some false, id := some "m1"
    participant := none }

def scenarioAEvent : WebMessageInfo :=
  { key := some scenarioAKey
    message := some plainTextHi
    messageTimestamp := some 1 }

/-- C6 witness (Scenario A): with local identity `999` the event yields
`{from:"555", to:"999", content:"hi", type:"text", isOutbound:false}`. -/
theorem normalize_inbound_direct_witness :
    extractMessageDataEffect scenarioAEvent (some "999") 0 = some
      { id := some "m1", «from» := some "555", «to» := some "999",
        chat_id := "555@s", timestamp := 1000, content := "hi",
        messageType := "text", isFromMe := false, isGroup := false,
        processed := false } := by
  rw [normalize_inbound_direct scenarioAEvent scenarioAKey
    "555@s" (some "999") 0 1000 rfl (by decide) (by decide) (by decide)
    (by decide)]
  decide

/-- C10: the ingestion pipeline normalizes without a local identity, so
every record it produces has an absent recipient when inbound and an
absent sender when outbound. -/
theorem pipeline_records_lack_counterparty (msgs : List WebMessageInfo)
    (now : Nat) (r : InsertMessage)
    (hr : r ∈ processBatchMessages msgs now) :
    (r.isFromMe = false → r.«to» = none) ∧
    (r.isFromMe = true → r.«from» = none) := by
  obtain ⟨m, _, hf⟩ := List.mem_filterMap.mp hr
  cases hk : m.key with
  | none => rw [hk] at hf; simp at hf
  | some k =>
    rw [hk] at hf
    simp only [] at hf
    cases hj : truthy k.remoteJid with
    | none => rw [hj] at hf; simp at hf
    | some chatId =>
      rw [hj] at hf
      simp only [] at hf
      cases hts : extractTimestamp m.messageTimestamp now with
      | none => simp [extractMessageDataEffect, hk, hj, hts] at hf
      | some ts =>
      rw [extractMessageDataEffect_eq m k chatId none now ts hk hj hts] at hf
      obtain rfl := Option.some.inj hf
      by_cases hfm : k.fromMe.getD false
      · by_cases hgrp : jsIncludes chatId "@g.us" <;>
          simp [hfm, hgrp, localNumber, truthy]
      · simp only [Bool.not_eq_true] at hfm
        by_cases hgrp : jsIncludes chatId "@g.us" <;>
          simp [hfm, hgrp, localNumber, truthy]

def pipelineDemoRecord : InsertMessage :=
  { id := some "m1", «from» := some "555", «to» := none, chat_id := "555@s",
    timestamp := 1000, content := "hi", messageType := "text",
    isFromMe := false, isGroup := false, processed := false }

/-- C10 witness: the inbound Scenario A event processed by the pipeline
(no local identity supplied) yields a record with `to = null`. -/
theorem pipeline_records_lack_counterparty_witness :
    pipelineDemoRecord ∈ processBatchMessages [scenarioAEvent] 0 ∧
    pipelineDemoRecord.«to» = none :=
  ⟨by decide,
   (pipeline_records_lack_counterparty [scenarioAEvent] 0 pipelineDemoRecord
     (by decide)).1 (by decide)⟩

theorem applyMarkProcessed_idem (table : List WhatsAppMessage)
    (messageId : String) :
    applyMarkProcessed (applyMarkProcessed table messageId) messageId
      = applyMarkProcessed table messageId := by
  unfold applyMarkProcessed
  rw [List.map_map]
  apply List.map_congr_left
  intro r _
  by_cases h : r.id = messageId
  · simp [h]
  · simp [h]

theorem applyMarkProcessed_of_absent (table : List WhatsAppMessage)
    (messageId : String) (h : ∀ r ∈ table, r.id ≠ messageId) :
    applyMarkProcessed table messageId = table := by
  induction table with
  | nil => rfl
  | cons a tl ih =>
    have ha : a.id ≠ messageId := h a (by simp)
    have htl := ih (fun b hb => h b (by simp [hb]))
    simp only [applyMarkProcessed, List.map_cons] at *
    rw [if_neg ha, htl]

/-- C5 counterexample: `markAsProcessed` on an id absent from the store
completes normally with no returned row — it does not fail, while the
spec-modelled contract would fail with `NotFound`. -/
theorem markProcessed_unknown_id_no_error :
    markAsProcessed [] "m1" = .ok ([], none) ∧
    markProcessedSpec [] "m1" = .error RepoError.notFound :=
  ⟨rfl, rfl⟩

/-- C5 as amended: a second `markAsProcessed` after a successful first call
is a no-op success returning the same updated table and row, any returned
row has `processed = true`; and for an id not present in the store the call
*succeeds* returning no record (`UPDATE` matches no row, `result[0]` is
absent) — no `NotFound` error is raised. -/
theorem markProcessed_idempotent_no_notfound :
    (∀ table messageId t1 r1,
        markAsProcessed table messageId = .ok (t1, r1) →
        markAsProcessed t1 messageId = .ok (t1, r1) ∧
        ∀ r, r1 = some r → r.processed = true) ∧
    (∀ (table : List WhatsAppMessage) messageId,
        (∀ r ∈ table, r.id ≠ messageId) →
        markAsProcessed table messageId = .ok (table, none)) := by
  constructor
  · intro table messageId t1 r1 hm
    unfold markAsProcessed at hm
    obtain ⟨ht, hr⟩ : applyMarkProcessed table messageId = t1 ∧
        ((applyMarkProcessed table messageId).filter
          (fun r => r.id == messageId)).head? = r1 := by
      simpa [Prod.ext_iff] using hm
    subst ht
    subst hr
    constructor
    · unfold markAsProcessed
      rw [applyMarkProcessed_idem]
    · intro r hr2
      have hmem : r ∈ (applyMarkProcessed table messageId).filter
          (fun r => r.id == messageId) :=
        List.mem_of_mem_head? (by simp [hr2])
      obtain ⟨hmem2, hid⟩ := List.mem_filter.mp hmem
      obtain ⟨r0, _, hr0eq⟩ := List.mem_map.mp hmem2
      by_cases h0 : r0.id = messageId
      · rw [if_pos h0] at hr0eq
        rw [← hr0eq]
      · rw [if_neg h0] at hr0eq
        subst hr0eq
        simp at hid
        exact absurd hid h0
  · intro table messageId hnone
    unfold markAsProcessed
    rw [applyMarkProcessed_of_absent table messageId hnone]
    have h2 : table.filter (fun r => r.id == messageId) = [] :=
      List.filter_eq_nil_iff.mpr (fun a ha => by simp [hnone a ha])
    simp [h2]

def sampleRow : WhatsAppMessage :=
  { id := "m1", «from» := some "555", «to» := some "999", chat_id := "555@s",
    timestamp := "2024-05-01T10:00:00.000Z", content := "hi",
    messageType := "text", isFromMe := false, isGroup := false,
    processed := false, createdAt := "2024-05-01 10:00:01" }

def markedRow : WhatsAppMessage := { sampleRow with processed := true }

/-- C5 witness: after marking the stored record `"m1"`, a second call is a
no-op success and the row stays processed. -/
theorem markProcessed_idempotent_no_notfound_witness :
    markAsProcessed [markedRow] "m1" = .ok ([markedRow], some markedRow) ∧
    markedRow.processed = true :=
  ⟨(markProcessed_idempotent_no_notfound.1 [sampleRow] "m1" [markedRow]
      (some markedRow) rfl).1,
   (markProcessed_idempotent_no_notfound.1 [sampleRow] "m1" [markedRow]
      (some markedRow) rfl).2 markedRow rfl⟩

/-- Agreement on every `messages` column except the mutable `processed`
flag. -/
def agreesExceptProcessed (a b : WhatsAppMessage) : Prop :=
  a.id = b.id ∧ a.«from» = b.«from» ∧ a.«to» = b.«to» ∧
    a.chat_id = b.chat_id ∧ a.timestamp = b.timestamp ∧
    a.content = b.content ∧ a.messageType = b.messageType ∧
    a.isFromMe = b.isFromMe ∧ a.isGroup = b.isGroup ∧
    a.createdAt = b.createdAt

theorem agreesExceptProcessed_refl (a : WhatsAppMessage) :
    agreesExceptProcessed a a :=
  ⟨rfl, rfl, rfl, rfl, rfl, rfl, rfl, rfl, rfl, rfl⟩

theorem agreesExceptProcessed_trans {a b c : WhatsAppMessage}
    (h1 : agreesExceptProcessed a b) (h2 : agreesExceptProcessed b c) :
    agreesExceptProcessed a c := by
  obtain ⟨p1, p2, p3, p4, p5, p6, p7, p8, p9, p10⟩ := h1
  obtain ⟨q1, q2, q3, q4, q5, q6, q7, q8, q9, q10⟩ := h2
  exact ⟨p1.trans q1, p2.trans q2, p3.trans q3, p4.trans q4, p5.trans q5,
    p6.trans q6, p7.trans q7, p8.trans q8, p9.trans q9, p10.trans q10⟩

theorem applyMarkProcessed_length (table : List WhatsAppMessage)
    (messageId : String) :
    (applyMarkProcessed table messageId).length = table.length := by
  simp [applyMarkProcessed]

theorem markRow_agrees (r : WhatsAppMessage) (messageId : String) :
    agreesExceptProcessed
      (if r.id = messageId then { r with processed := true } else r) r := by
  by_cases h : r.id = messageId
  · rw [if_pos h]
    exact ⟨rfl, rfl, rfl, rfl, rfl, rfl, rfl, rfl, rfl, rfl⟩
  · rw [if_neg h]
    exact agreesExceptProcessed_refl r

theorem applyMarkProcessed_get (table : List WhatsAppMessage)
    (messageId : String) (i : Nat)
    (h1 : i < (applyMarkProcessed table messageId).length)
    (h2 : i < table.length) :
    agreesExceptProcessed ((applyMarkProcessed table messageId).get ⟨i, h1⟩)
      (table.get ⟨i, h2⟩) := by
  unfold applyMarkProcessed at h1 ⊢
  rw [List.get_map]
  exact markRow_agrees _ messageId

theorem foldl_mark_length (ms : List WhatsAppMessage) :
    ∀ table : List WhatsAppMessage,
      (ms.foldl (fun t m => applyMarkProcessed t m.id) table).length
        = table.length := by
  induction ms with
  | nil => intro t; rfl
  | cons m tl ih =>
    intro t
    rw [List.foldl_cons, ih, applyMarkProcessed_length]

theorem foldl_mark_get (ms : List WhatsAppMessage) :
    ∀ (table : List WhatsAppMessage) (i : Nat)
      (h1 : i < (ms.foldl (fun t m => applyMarkProcessed t m.id) table).length)
      (h2 : i < table.length),
      agreesExceptProcessed
        ((ms.foldl (fun t m => applyMarkProcessed t m.id) table).get ⟨i, h1⟩)
        (table.get ⟨i, h2⟩) := by
  induction ms with
  | nil => intro t i h1 h2; exact agreesExceptProcessed_refl _
  | cons m tl ih =>
    intro t i h1 h2
    have hmid : i < (applyMarkProcessed t m.id).length := by
      rw [applyMarkProcessed_length]; exact h2
    exact agreesExceptProcessed_trans
      (ih (applyMarkProcessed t m.id) i h1 hmid)
      (applyMarkProcessed_get t m.id i hmid h2)

/-- C8: `markAsProcessed` mutates only the `processed` column — every other
column of every row is unchanged — and hence a full scheduler sweep leaves
each row's insertion-assigned `createdAt` untouched. -/
theorem markProcessed_frame (table : List WhatsAppMessage)
    (messageId : String) (t1 : List WhatsAppMessage)
    (r1 : Option WhatsAppMessage)
    (hm : markAsProcessed table messageId = .ok (t1, r1)) :
    t1.length = table.length ∧
    (∀ i (h1 : i < t1.length) (h2 : i < table.length),
      agreesExceptProcessed (t1.get ⟨i, h1⟩) (table.get ⟨i, h2⟩)) ∧
    (sweepOnce table).1.length = table.length ∧
    (∀ i (h1 : i < (sweepOnce table).1.length) (h2 : i < table.length),
      ((sweepOnce table).1.get ⟨i, h1⟩).createdAt
        = (table.get ⟨i, h2⟩).createdAt) := by
  obtain ⟨ht, _⟩ : applyMarkProcessed table messageId = t1 ∧
      ((applyMarkProcessed table messageId).filter
        (fun r => r.id == messageId)).head? = r1 := by
    unfold markAsProcessed at hm
    simpa [Prod.ext_iff] using hm
  subst ht
  refine ⟨applyMarkProcessed_length table messageId,
    fun i h1 h2 => applyMarkProcessed_get table messageId i h1 h2, ?_, ?_⟩
  · unfold sweepOnce
    exact foldl_mark_length (getUnprocessedMessages table) table
  · intro i h1 h2
    unfold sweepOnce at h1 ⊢
    exact (foldl_mark_get (getUnprocessedMessages table) table i h1
      h2).2.2.2.2.2.2.2.2.2

/-- C8 witness: marking the single stored row leaves every column but
`processed` unchanged, and a sweep preserves its `createdAt`. -/
theorem markProcessed_frame_witness :
    agreesExceptProcessed
      ((applyMarkProcessed [sampleRow] "m1").get ⟨0, by decide⟩) sampleRow ∧
    ((sweepOnce [sampleRow]).1.get ⟨0, by decide⟩).createdAt
      = sampleRow.createdAt :=
  ⟨(markProcessed_frame [sampleRow] "m1" (applyMarkProcessed [sampleRow] "m1")
      ((applyMarkProcessed [sampleRow] "m1").filter
        (fun (r : WhatsAppMessage) => r.id == "m1")).head? rfl).2.1
      0 (by decide) (by decide),
   (markProcessed_frame [sampleRow] "m1" (applyMarkProcessed [sampleRow] "m1")
      ((applyMarkProcessed [sampleRow] "m1").filter
        (fun (r : WhatsAppMessage) => r.id == "m1")).head? rfl).2.2.2
      0 (by decide) (by decide)⟩

/-- C1 as amended: for every well-formed credential/key blob — byte values
below 256 and no object spoofing the reserved `__type: 'binary'` tag —
decoding the encoded form restores the value exactly, every nested byte
sequence byte-for-byte (a `Buffer` comes back as a `Uint8Array` with the
same bytes). -/
theorem serialize_roundtrip_tagfree (v : JsValue) (h : validBlob v = true) :
    deserializeBinaryData (serializeBinaryData v) = .ok v :=
  roundTripValue v h

/-- A credential-like blob with nested binary payloads in an object, an
array, and a nested object. -/
def nestedBinaryBlob : JsValue :=
  .obj (.cons "noiseKey" (.binary [0, 1, 255])
    (.cons "keys"
      (.arr (.cons (.binary [7])
        (.cons (.obj (.cons "k" (.binary [1, 2, 3, 4]) .nil)) .nil)))
      (.cons "registered" (.boolean false) .nil)))

/-- C1 witness: the amended round trip at a concrete nested blob. -/
theorem serialize_roundtrip_tagfree_witness :
    validBlob nestedBinaryBlob = true ∧
    deserializeBinaryData (serializeBinaryData nestedBinaryBlob)
      = .ok nestedBinaryBlob :=
  ⟨rfl, serialize_roundtrip_tagfree nestedBinaryBlob rfl⟩

/-- A plain object that spoofs the serializer's reserved tag. -/
def spoofTagBlob : JsValue :=
  .obj (.cons "__type" (.str "binary") (.cons "data" (.str "") .nil))

/-- C1 counterexample: the round-trip law fails on the universal domain of
the claim — a plain string-keyed object carrying `__type: 'binary'` decodes
to a byte sequence, not to itself. -/
theorem serialize_roundtrip_counterexample :
    deserializeBinaryData (serializeBinaryData spoofTagBlob)
      = .ok (JsValue.binary []) ∧
    JsValue.binary [] ≠ spoofTagBlob := by
  constructor
  · rfl
  · intro hcontr
    simp [spoofTagBlob] at hcontr
